import Mathlib

/-!
Verification of the Fourier seasonality core of `pymc_marketing/mmm/fourier.py`.

The numeric routines are embedded over the real numbers (the exact
real-number reading of the IEEE double-precision trig used by the code),
lists play the role of numpy arrays, and the labeled-tensor broadcasting
is embedded with tensors as functions from axis-name assignments to
values.
-/

namespace Fourier

/-- Embedding of `generate_fourier_modes` (fourier.py lines 231-261):
`multiples = arange(1, n_order+1)`, `x = 2*pi*periods`,
`values = x[:, None] * multiples`, and the result is the row-wise
concatenation `[sin(values), cos(values)]` along axis 1. -/
noncomputable def generate_fourier_modes (periods : List ℝ) (n_order : ℕ) :
    List (List ℝ) :=
  periods.map fun p =>
    let values := (List.range' 1 n_order).map fun (k : ℕ) => 2 * Real.pi * p * (k : ℝ)
    values.map Real.sin ++ values.map Real.cos

theorem gfm_length (periods : List ℝ) (n_order : ℕ) :
    (generate_fourier_modes periods n_order).length = periods.length := by
  simp only [generate_fourier_modes, List.length_map]

theorem gfm_row_length (periods : List ℝ) (n_order : ℕ) (row : List ℝ)
    (h : row ∈ generate_fourier_modes periods n_order) : row.length = 2 * n_order := by
  simp only [generate_fourier_modes, List.mem_map] at h
  obtain ⟨p, -, rfl⟩ := h
  simp only [List.length_append, List.length_map, List.length_range']
  omega

theorem gfm_getD_row (periods : List ℝ) (n_order : ℕ) (p : ℕ)
    (hp : p < periods.length) :
    (generate_fourier_modes periods n_order).getD p [] =
      ((List.range' 1 n_order).map fun (k : ℕ) =>
          Real.sin (2 * Real.pi * periods.getD p 0 * (k : ℝ))) ++
        ((List.range' 1 n_order).map fun (k : ℕ) =>
          Real.cos (2 * Real.pi * periods.getD p 0 * (k : ℝ))) := by
  have hp2 : p < (generate_fourier_modes periods n_order).length := by
    rw [gfm_length]; exact hp
  rw [List.getD_eq_getElem _ _ hp2, List.getD_eq_getElem _ _ hp]
  simp only [generate_fourier_modes, List.getElem_map, List.map_map]
  rfl

/-- Entry formula for the fourier mode matrix: sines for multiples `1..n_order`
come first, then cosines. -/
theorem gfm_entry (periods : List ℝ) (n_order : ℕ) (p c : ℕ)
    (hp : p < periods.length) (hc : c < 2 * n_order) :
    ((generate_fourier_modes periods n_order).getD p []).getD c 0 =
      if c < n_order then
        Real.sin (2 * Real.pi * periods.getD p 0 * ((c + 1 : ℕ) : ℝ))
      else
        Real.cos (2 * Real.pi * periods.getD p 0 * ((c - n_order + 1 : ℕ) : ℝ)) := by
  rw [gfm_getD_row periods n_order p hp]
  have hct : c < (((List.range' 1 n_order).map fun (k : ℕ) =>
      Real.sin (2 * Real.pi * periods.getD p 0 * (k : ℝ))) ++
        ((List.range' 1 n_order).map fun (k : ℕ) =>
          Real.cos (2 * Real.pi * periods.getD p 0 * (k : ℝ)))).length := by
    simp only [List.length_append, List.length_map, List.length_range']
    omega
  rw [List.getD_eq_getElem _ _ hct]
  by_cases h : c < n_order
  · rw [if_pos h]
    rw [List.getElem_append_left
      (by simp only [List.length_map, List.length_range']; exact h)]
    simp only [List.getElem_map, List.getElem_range']
    have harith : 1 + 1 * c = c + 1 := by omega
    rw [harith]
  · rw [if_neg h]
    rw [List.getElem_append_right
      (by simp only [List.length_map, List.length_range']; omega)]
    simp only [List.getElem_map, List.getElem_range', List.length_map,
      List.length_range']
    have harith : 1 + 1 * (c - n_order) = c - n_order + 1 := by omega
    rw [harith]

/-- Embedding of `FourierBase.nodes` (fourier.py lines 322-327):
the list comprehension over `func in ["sin", "cos"]` and `i in range(1, n_order+1)`. -/
def nodes (n_order : ℕ) : List String :=
  ["sin", "cos"].flatMap fun func =>
    (List.range' 1 n_order).map fun i => func ++ "_" ++ toString i

theorem nodes_eq_append (n_order : ℕ) :
    nodes n_order =
      ((List.range' 1 n_order).map fun i => "sin" ++ "_" ++ toString i) ++
        ((List.range' 1 n_order).map fun i => "cos" ++ "_" ++ toString i) := by
  simp only [nodes, List.flatMap_cons, List.flatMap_nil, List.append_nil]

theorem nodes_length (n_order : ℕ) : (nodes n_order).length = 2 * n_order := by
  rw [nodes_eq_append]
  simp only [List.length_append, List.length_map, List.length_range']
  omega

theorem nodes_getD (n_order : ℕ) (i : ℕ) (hi : i < 2 * n_order) :
    (nodes n_order).getD i "" =
      if i < n_order then "sin" ++ "_" ++ toString (i + 1)
      else "cos" ++ "_" ++ toString (i - n_order + 1) := by
  rw [nodes_eq_append]
  have hit : i < (((List.range' 1 n_order).map fun i => "sin" ++ "_" ++ toString i) ++
      ((List.range' 1 n_order).map fun i => "cos" ++ "_" ++ toString i)).length := by
    simp only [List.length_append, List.length_map, List.length_range']
    omega
  rw [List.getD_eq_getElem _ _ hit]
  by_cases h : i < n_order
  · rw [if_pos h]
    rw [List.getElem_append_left
      (by simp only [List.length_map, List.length_range']; exact h)]
    simp only [List.getElem_map, List.getElem_range']
    have harith : 1 + 1 * i = i + 1 := by omega
    rw [harith]
  · rw [if_neg h]
    rw [List.getElem_append_right
      (by simp only [List.length_map, List.length_range']; omega)]
    simp only [List.getElem_map, List.getElem_range', List.length_map,
      List.length_range']
    have harith : 1 + 1 * (i - n_order) = i - n_order + 1 := by omega
    rw [harith]

/-- Claim C1: for `n_order >= 1` the returned matrix has `periods.length` rows,
every row has `2 * n_order` columns, and the entry in row `p`, column `c` is
`sin(2*pi*periods[p]*(c+1))` for `c < n_order` and
`cos(2*pi*periods[p]*(c-n_order+1))` for `n_order <= c < 2*n_order`
(sines for multiples `1..n_order` concatenated before cosines). -/
theorem generate_fourier_modes_spec (periods : List ℝ) (n_order : ℕ)
    (hn : 1 ≤ n_order) :
    (generate_fourier_modes periods n_order).length = periods.length ∧
    (∀ row ∈ generate_fourier_modes periods n_order, row.length = 2 * n_order) ∧
    (∀ p c : ℕ, p < periods.length → c < 2 * n_order →
      ((generate_fourier_modes periods n_order).getD p []).getD c 0 =
        if c < n_order then
          Real.sin (2 * Real.pi * periods.getD p 0 * ((c + 1 : ℕ) : ℝ))
        else
          Real.cos (2 * Real.pi * periods.getD p 0 * ((c - n_order + 1 : ℕ) : ℝ))) := by
  refine ⟨gfm_length periods n_order, fun row h => gfm_row_length periods n_order row h,
    fun p c hp hc => gfm_entry periods n_order p c hp hc⟩

/-- Witness for claim C1 at `periods = [0]`, `n_order = 1`, row 0, column 0. -/
theorem generate_fourier_modes_spec_witness :
    (generate_fourier_modes [(0 : ℝ)] 1).length = 1 ∧
    ((generate_fourier_modes [(0 : ℝ)] 1).getD 0 []).getD 0 0 =
      if 0 < 1 then
        Real.sin (2 * Real.pi * ([(0 : ℝ)].getD 0 0) * ((0 + 1 : ℕ) : ℝ))
      else
        Real.cos (2 * Real.pi * ([(0 : ℝ)].getD 0 0) * ((0 - 1 + 1 : ℕ) : ℝ)) :=
  ⟨(generate_fourier_modes_spec [(0 : ℝ)] 1 (by decide)).1,
    (generate_fourier_modes_spec [(0 : ℝ)] 1 (by decide)).2.2 0 0 (by decide) (by decide)⟩

/-- Claim C4: Pythagorean identity. For every row `p` and harmonic order
`k` in `1..n_order`, the square of the `sin_k` column (index `k-1`) plus the
square of the `cos_k` column (index `n_order+k-1`) equals 1 exactly over the
real-number embedding. -/
theorem fourier_modes_pythagorean (periods : List ℝ) (n_order : ℕ)
    (p k : ℕ) (hp : p < periods.length) (hk1 : 1 ≤ k) (hk2 : k ≤ n_order) :
    (((generate_fourier_modes periods n_order).getD p []).getD (k - 1) 0) ^ 2 +
      (((generate_fourier_modes periods n_order).getD p []).getD (n_order + k - 1) 0) ^ 2
      = 1 := by
  rw [gfm_entry periods n_order p (k - 1) hp (by omega),
    gfm_entry periods n_order p (n_order + k - 1) hp (by omega)]
  rw [if_pos (by omega), if_neg (by omega)]
  have h1 : k - 1 + 1 = k := by omega
  have h2 : n_order + k - 1 - n_order + 1 = k := by omega
  rw [h1, h2]
  exact Real.sin_sq_add_cos_sq _

/-- Witness for claim C4 at `periods = [0]`, `n_order = 1`, `p = 0`, `k = 1`. -/
theorem fourier_modes_pythagorean_witness :
    (((generate_fourier_modes [(0 : ℝ)] 1).getD 0 []).getD 0 0) ^ 2 +
      (((generate_fourier_modes [(0 : ℝ)] 1).getD 0 []).getD 1 0) ^ 2 = 1 :=
  fourier_modes_pythagorean [(0 : ℝ)] 1 0 1 (by decide) (by decide) (by decide)

/-- Claim C5: every element of the matrix returned by `generate_fourier_modes`
lies in the closed interval `[-1, 1]`. -/
theorem fourier_modes_bounded (periods : List ℝ) (n_order : ℕ) (row : List ℝ)
    (x : ℝ) (hrow : row ∈ generate_fourier_modes periods n_order) (hx : x ∈ row) :
    -1 ≤ x ∧ x ≤ 1 := by
  simp only [generate_fourier_modes, List.mem_map] at hrow
  obtain ⟨q, -, rfl⟩ := hrow
  rw [List.mem_append] at hx
  rcases hx with hx | hx
  · obtain ⟨y, -, rfl⟩ := List.mem_map.1 hx
    exact ⟨Real.neg_one_le_sin y, Real.sin_le_one y⟩
  · obtain ⟨y, -, rfl⟩ := List.mem_map.1 hx
    exact ⟨Real.neg_one_le_cos y, Real.cos_le_one y⟩

/-- Witness for claim C5 at `periods = [0]`, `n_order = 1`, on the first
element of the first row. -/
theorem fourier_modes_bounded_witness :
    -1 ≤ Real.sin (2 * Real.pi * (0 : ℝ) * ((1 : ℕ) : ℝ)) ∧
      Real.sin (2 * Real.pi * (0 : ℝ) * ((1 : ℕ) : ℝ)) ≤ 1 :=
  fourier_modes_bounded [(0 : ℝ)] 1
    [Real.sin (2 * Real.pi * (0 : ℝ) * ((1 : ℕ) : ℝ)),
      Real.cos (2 * Real.pi * (0 : ℝ) * ((1 : ℕ) : ℝ))]
    (Real.sin (2 * Real.pi * (0 : ℝ) * ((1 : ℕ) : ℝ)))
    (by simp [generate_fourier_modes, List.range'])
    (by simp)

/-- Claim C3: the harmonic-axis labels are
`["sin_1", ..., "sin_n_order", "cos_1", ..., "cos_n_order"]` in that order,
of length `2 * n_order`; position `i` carries the trig name and multiple
(`i+1` for sines, `i - n_order + 1` for cosines) of exactly column `i` of
the matrix produced by `generate_fourier_modes`; for `n_order = 2` the
labels are `["sin_1", "sin_2", "cos_1", "cos_2"]`. -/
theorem nodes_spec (n_order : ℕ) (hn : 1 ≤ n_order) :
    nodes n_order =
      ((List.range' 1 n_order).map fun i => "sin" ++ "_" ++ toString i) ++
        ((List.range' 1 n_order).map fun i => "cos" ++ "_" ++ toString i) ∧
    (nodes n_order).length = 2 * n_order ∧
    nodes 2 = ["sin_1", "sin_2", "cos_1", "cos_2"] ∧
    (∀ i : ℕ, i < 2 * n_order →
      (nodes n_order).getD i "" =
        if i < n_order then "sin" ++ "_" ++ toString (i + 1)
        else "cos" ++ "_" ++ toString (i - n_order + 1)) ∧
    (∀ (periods : List ℝ) (p i : ℕ), p < periods.length → i < 2 * n_order →
      ((generate_fourier_modes periods n_order).getD p []).getD i 0 =
        if i < n_order then
          Real.sin (2 * Real.pi * periods.getD p 0 * ((i + 1 : ℕ) : ℝ))
        else
          Real.cos (2 * Real.pi * periods.getD p 0 * ((i - n_order + 1 : ℕ) : ℝ))) := by
  refine ⟨nodes_eq_append n_order, nodes_length n_order, by decide,
    fun i hi => nodes_getD n_order i hi,
    fun periods p i hp hi => gfm_entry periods n_order p i hp hi⟩

/-- Witness for claim C3 at `n_order = 2` and label position 0. -/
theorem nodes_spec_witness :
    nodes 2 = ["sin_1", "sin_2", "cos_1", "cos_2"] ∧
    (nodes 2).length = 2 * 2 ∧
    (nodes 2).getD 0 "" =
      (if 0 < 2 then "sin" ++ "_" ++ toString (0 + 1)
        else "cos" ++ "_" ++ toString (0 - 2 + 1)) :=
  ⟨(nodes_spec 2 (by decide)).2.2.1, (nodes_spec 2 (by decide)).2.1,
    (nodes_spec 2 (by decide)).2.2.2.1 0 (by decide)⟩

/-- Modelled from the spec: `DAYS_IN_YEAR` lives in
`pymc_marketing/constants.py`, which is not under src; the module docstring
of fourier.py (lines 20-23) fixes the yearly period at 365.25 days and the
monthly period at 365.25 / 12 days. -/
def DAYS_IN_YEAR : ℚ := 365.25

/-- Modelled from the spec: the monthly period, `365.25 / 12` days
(fourier.py module docstring, line 23). -/
def DAYS_IN_MONTH : ℚ := DAYS_IN_YEAR / 12

/-- Modelled from the spec: numpy's `arange(stop)` with start 0 and step 1
(numpy is outside the repository). For `stop > 0` it yields
`0, 1, ..., ⌈stop⌉ - 1`. -/
def npArange (stop : ℚ) : List ℚ :=
  (List.range (Int.toNat ⌈stop⌉)).map fun (i : ℕ) => (i : ℚ)

/-- Embedding of the day grid built by `FourierBase.sample_curve`
(fourier.py line 435): `full_period = np.arange(self.days_in_period + 1)`. -/
def sampleCurveDays (days_in_period : ℚ) : List ℚ :=
  npArange (days_in_period + 1)

theorem ceil_days_in_year : ⌈DAYS_IN_YEAR⌉ = 366 := by
  rw [Int.ceil_eq_iff]
  norm_num [DAYS_IN_YEAR]

theorem ceil_days_in_month : ⌈DAYS_IN_MONTH⌉ = 31 := by
  rw [Int.ceil_eq_iff]
  norm_num [DAYS_IN_MONTH, DAYS_IN_YEAR]

/-- Counterexample to claim C6 as stated: for `YearlyFourier`
(`days_in_period = 365.25`), `sample_curve` samples 367 points along the
day axis, which is not `days_in_period + 1 = 366.25` points. -/
theorem sample_curve_day_count_counterexample :
    (sampleCurveDays DAYS_IN_YEAR).length = 367 ∧
      ((367 : ℚ) ≠ DAYS_IN_YEAR + 1) := by
  constructor
  · simp only [sampleCurveDays, npArange, List.length_map, List.length_range,
      Int.ceil_add_one, ceil_days_in_year]
    rfl
  · norm_num [DAYS_IN_YEAR]

/-- Claim C6 as amended: `sample_curve` samples the curve at
`⌈days_in_period⌉ + 1` points along the day axis, the days being
`0, 1, ..., ⌈days_in_period⌉`; for `YearlyFourier` that is 367 points and
for `MonthlyFourier` 32 points. -/
theorem sample_curve_day_grid (d : ℚ) (hd : 0 < d) :
    (sampleCurveDays d).length = Int.toNat (⌈d⌉ + 1) ∧
    (∀ i : ℕ, i < (sampleCurveDays d).length → (sampleCurveDays d).getD i 0 = (i : ℚ)) ∧
    (sampleCurveDays DAYS_IN_YEAR).length = 367 ∧
    (sampleCurveDays DAYS_IN_MONTH).length = 32 := by
  refine ⟨?_, ?_, ?_, ?_⟩
  · simp only [sampleCurveDays, npArange, List.length_map, List.length_range,
      Int.ceil_add_one]
  · intro i hi
    rw [List.getD_eq_getElem _ _ hi]
    simp only [sampleCurveDays, npArange, List.getElem_map, List.getElem_range]
  · simp only [sampleCurveDays, npArange, List.length_map, List.length_range,
      Int.ceil_add_one, ceil_days_in_year]
    rfl
  · simp only [sampleCurveDays, npArange, List.length_map, List.length_range,
      Int.ceil_add_one, ceil_days_in_month]
    rfl

/-- Witness for the amended claim C6 at `d = DAYS_IN_YEAR`, day 5. -/
theorem sample_curve_day_grid_witness :
    (sampleCurveDays DAYS_IN_YEAR).length = Int.toNat (⌈DAYS_IN_YEAR⌉ + 1) ∧
      (sampleCurveDays DAYS_IN_YEAR).getD 5 0 = ((5 : ℕ) : ℚ) :=
  ⟨(sample_curve_day_grid DAYS_IN_YEAR (by norm_num [DAYS_IN_YEAR])).1,
    (sample_curve_day_grid DAYS_IN_YEAR (by norm_num [DAYS_IN_YEAR])).2.1 5
      (by rw [(sample_curve_day_grid DAYS_IN_YEAR (by norm_num [DAYS_IN_YEAR])).1,
            ceil_days_in_year]
          decide)⟩

/-- Modelled from the spec: `pymc_marketing.prior.Prior` is not under src.
Per the spec (section 3, NamedTensor / SeasonalityWeight) a prior declares a
distribution together with an ordered axis-label list `dims`; the `dims`
setter normalizes a single axis name to a one-element tuple, and `deepcopy`
produces an independent copy of the object. -/
structure Prior where
  distribution : String
  dims : List String
deriving DecidableEq

/-- A Python numeric argument: `isinstance(n_order, int)` in
`FourierBase.__init__` distinguishes ints from other numbers (e.g. 2.5). -/
inductive PyNum where
  | int : ℤ → PyNum
  | float : ℚ → PyNum
deriving DecidableEq

/-- The `n_order` validity test of fourier.py line 304:
`isinstance(n_order, int)` and not `n_order < 1`. -/
def PyNum.isPosInt : PyNum → Bool
  | .int z => decide (1 ≤ z)
  | .float _ => false

def PyNum.toInt : PyNum → ℤ
  | .int z => z
  | .float _ => 0

/-- The three `ValueError`s raised by `FourierBase.__init__`
(fourier.py lines 304-320). -/
inductive InitError where
  | invalidOrder
  | nameCollision
  | missingAxis
deriving DecidableEq

/-- The state built by a successful `FourierBase.__init__`: the order, the
resolved axis name (`self.prefix`), a reference to the prior object, and
the variable name. -/
structure FourierBase where
  n_order : ℤ
  pfx : String
  priorRef : ℕ
  variable_name : String
deriving DecidableEq

/-- Python `arg or default` for an optional string: `None` and the empty
string are falsy. -/
def pyOr (arg : Option String) (default : String) : String :=
  match arg with
  | none => default
  | some s => if s = "" then default else s

/-- Embedding of `FourierBase.__init__` (fourier.py lines 297-320). Prior
objects live in an explicit heap (`List Prior`) addressed by index, so that
the aliasing behaviour of `self.prior.deepcopy()` is observable; `defaultRef`
points at the class attribute `default_prior` (a `Prior` with no dims).
The three `raise ValueError` sites become the three `InitError`s, in source
order: invalid order first, then name collision, then the missing-axis
check after the empty-dims default has been applied. -/
def FourierBase.init (heap : List Prior) (defaultRef : ℕ) (n_order : PyNum)
    (pfxArg : Option String) (priorArg : Option ℕ) (nameArg : Option String) :
    Except InitError (List Prior × FourierBase) :=
  if n_order.isPosInt = false then .error .invalidOrder
  else
    let pfx := pyOr pfxArg "fourier"
    let priorRef := priorArg.getD defaultRef
    let variable_name := pyOr nameArg (pfx ++ "_beta")
    if variable_name = pfx then .error .nameCollision
    else
      let p := heap.getD priorRef ⟨"", []⟩
      let heap2 := if p.dims = [] then heap ++ [{ p with dims := [pfx] }] else heap
      let ref2 := if p.dims = [] then heap.length else priorRef
      let p2 := heap2.getD ref2 ⟨"", []⟩
      if pfx ∈ p2.dims then
        .ok (heap2, ⟨n_order.toInt, pfx, ref2, variable_name⟩)
      else .error .missingAxis

theorem pyOr_ne_empty (arg : Option String) (d : String) (hd : d ≠ "") :
    pyOr arg d ≠ "" := by
  cases arg with
  | none => exact hd
  | some s =>
    by_cases h : s = ""
    · simpa [pyOr, h] using hd
    · simpa [pyOr, h] using h

theorem append_beta_ne (s : String) : s ++ "_beta" ≠ s := by
  intro h
  have hlen := congrArg String.length h
  rw [String.length_append] at hlen
  have h5 : "_beta".length = 5 := rfl
  omega

theorem ite_tail_ne_invalid {α : Type} (c1 c2 : Prop) [Decidable c1]
    [Decidable c2] (x : α) :
    (if c1 then (Except.error InitError.nameCollision : Except InitError α)
      else if c2 then Except.ok x else Except.error InitError.missingAxis) ≠
      Except.error InitError.invalidOrder := by
  split
  · simp
  · split <;> simp

theorem ite_ok_or_missing_ne_collision {α : Type} (c : Prop) [Decidable c]
    (x : α) :
    (if c then (Except.ok x : Except InitError α)
      else Except.error InitError.missingAxis) ≠
      Except.error InitError.nameCollision := by
  split <;> simp

/-- Claim C7: construction raises `InvalidOrder` if and only if `n_order` is
not a positive integer (non-ints such as 2.5 included); the check is the
first statement of the constructor, before any other computation, and the
`Except` result carries no partially constructed state. -/
theorem init_invalid_order_iff (heap : List Prior) (defaultRef : ℕ)
    (n_order : PyNum) (pfxArg : Option String) (priorArg : Option ℕ)
    (nameArg : Option String) :
    FourierBase.init heap defaultRef n_order pfxArg priorArg nameArg =
        Except.error InitError.invalidOrder ↔ n_order.isPosInt = false := by
  unfold FourierBase.init
  rcases hb : n_order.isPosInt with _ | _
  · simp [hb]
  · rw [if_neg (by simp [hb])]
    constructor
    · intro h
      exact absurd h (ite_tail_ne_invalid _ _ _)
    · intro h
      simp at h

/-- Claim C9: an explicit variable name equal to the resolved prefix raises
`NameCollision`; with no explicit name the variable name defaults to
`prefix + "_beta"`, which never equals the prefix, so default construction
never raises `NameCollision`. -/
theorem init_name_collision (heap : List Prior) (defaultRef : ℕ)
    (n_order : PyNum) (pfxArg : Option String) (priorArg : Option ℕ)
    (s : String) (hn : n_order.isPosInt = true) (hs : s = pyOr pfxArg "fourier") :
    FourierBase.init heap defaultRef n_order pfxArg priorArg (some s) =
        Except.error InitError.nameCollision ∧
    (∀ (heap' : List Prior) (defaultRef' : ℕ) (n' : PyNum)
        (pfxArg' : Option String) (priorArg' : Option ℕ),
      FourierBase.init heap' defaultRef' n' pfxArg' priorArg' none ≠
        Except.error InitError.nameCollision) := by
  constructor
  · have hne : s ≠ "" := by
      rw [hs]; exact pyOr_ne_empty pfxArg "fourier" (by decide)
    unfold FourierBase.init
    rw [if_neg (by simp [hn])]
    have hname : pyOr (some s) (pyOr pfxArg "fourier" ++ "_beta") = s := by
      simp [pyOr, hne]
    simp only [hname]
    rw [if_pos hs]
  · intro heap' defaultRef' n' pfxArg' priorArg'
    unfold FourierBase.init
    rcases hb : n'.isPosInt with _ | _
    · simp [hb]
    · rw [if_neg (by simp [hb])]
      have hcol : ¬(pyOr none (pyOr pfxArg' "fourier" ++ "_beta") =
          pyOr pfxArg' "fourier") := by
        simpa [pyOr] using append_beta_ne (pyOr pfxArg' "fourier")
      rw [if_neg hcol]
      exact ite_ok_or_missing_ne_collision _ _

/-- Witness for claim C9: `name = "fourier"` with the default prefix
collides, and the invalid-order precondition is satisfiable at `n_order = 2`. -/
theorem init_name_collision_witness :
    FourierBase.init [] 0 (PyNum.int 2) none none (some "fourier") =
      Except.error InitError.nameCollision :=
  (init_name_collision [] 0 (PyNum.int 2) none none "fourier"
    (by decide) (by decide)).1

/-- Counterexample to claim C8 as stated: the empty dims tuple of this prior
does not include the prefix `"fourier"`, yet construction succeeds (no
`MissingAxis`) — the constructor silently replaces empty dims by the prefix
axis before the membership check. -/
theorem init_missing_axis_counterexample :
    "fourier" ∉ (Prior.mk "Normal" []).dims ∧
    FourierBase.init [Prior.mk "Normal" []] 0 (PyNum.int 2) none (some 0) none =
      Except.ok ([Prior.mk "Normal" [], Prior.mk "Normal" ["fourier"]],
        ⟨2, "fourier", 1, "fourier_beta"⟩) :=
  ⟨by decide, rfl⟩

/-- Claim C8 as amended: constructing with a prior whose declared dims are
nonempty and do not include the prefix raises `MissingAxis` at construction
time, before any numeric computation (a prior with empty dims is instead
silently given the prefix axis; see claim C10). -/
theorem init_missing_axis (heap : List Prior) (defaultRef : ℕ)
    (n_order : PyNum) (pfxArg : Option String) (priorArg : Option ℕ)
    (nameArg : Option String) (hn : n_order.isPosInt = true)
    (hv : pyOr nameArg (pyOr pfxArg "fourier" ++ "_beta") ≠ pyOr pfxArg "fourier")
    (hne : (heap.getD (priorArg.getD defaultRef) ⟨"", []⟩).dims ≠ [])
    (hmem : pyOr pfxArg "fourier" ∉
      (heap.getD (priorArg.getD defaultRef) ⟨"", []⟩).dims) :
    FourierBase.init heap defaultRef n_order pfxArg priorArg nameArg =
      Except.error InitError.missingAxis := by
  simp only [FourierBase.init]
  rw [if_neg (by simp [hn]), if_neg hv, if_neg hne, if_neg hne, if_neg hmem]

/-- Witness for the amended claim C8: a prior declared over only
`"hierarchy"` (mirroring `test_prior_doesnt_have_prefix`). -/
theorem init_missing_axis_witness :
    FourierBase.init [Prior.mk "Normal" ["hierarchy"]] 0 (PyNum.int 2) none
        (some 0) none = Except.error InitError.missingAxis :=
  init_missing_axis [Prior.mk "Normal" ["hierarchy"]] 0 (PyNum.int 2) none
    (some 0) none (by decide) (by decide) (by decide) (by decide)

/-- Claim C10: constructing with a prior whose declared dims are empty
raises no error; the constructor deep-copies the prior, sets the copy's
dims to the single prefix axis, points the instance at the fresh copy
(reference `heap.length`), and the caller's original object at slot `r` is
left unchanged, its dims still empty. -/
theorem init_empty_dims_deepcopy (heap : List Prior) (defaultRef : ℕ)
    (n_order : PyNum) (pfxArg : Option String) (r : ℕ)
    (hn : n_order.isPosInt = true) (hr : r < heap.length)
    (hdims : (heap.getD r ⟨"", []⟩).dims = []) :
    FourierBase.init heap defaultRef n_order pfxArg (some r) none =
      Except.ok
        (heap ++
            [Prior.mk (heap.getD r (Prior.mk "" [])).distribution
              [pyOr pfxArg "fourier"]],
          FourierBase.mk n_order.toInt (pyOr pfxArg "fourier") heap.length
            (pyOr pfxArg "fourier" ++ "_beta")) ∧
    (heap ++
        [Prior.mk (heap.getD r (Prior.mk "" [])).distribution
          [pyOr pfxArg "fourier"]]).getD r (Prior.mk "" []) =
      heap.getD r (Prior.mk "" []) ∧
    ((heap ++
        [Prior.mk (heap.getD r (Prior.mk "" [])).distribution
          [pyOr pfxArg "fourier"]]).getD heap.length (Prior.mk "" [])).dims =
      [pyOr pfxArg "fourier"] := by
  have hcopy : ∀ x : Prior, (heap ++ [x]).getD heap.length ⟨"", []⟩ = x := by
    intro x
    rw [List.getD_eq_getElem _ _ (by simp)]
    rw [List.getElem_append_right (le_refl heap.length)]
    simp
  refine ⟨?_, ?_, ?_⟩
  · unfold FourierBase.init
    rw [if_neg (by simp [hn])]
    rw [if_neg (by simpa [pyOr] using append_beta_ne (pyOr pfxArg "fourier"))]
    simp only [Option.getD_some]
    rw [if_pos hdims, if_pos hdims, hcopy]
    rw [if_pos (by simp : pyOr pfxArg "fourier" ∈
      (Prior.mk (heap.getD r (Prior.mk "" [])).distribution
        [pyOr pfxArg "fourier"]).dims)]
    rfl
  · exact (List.getD_eq_getElem _ _ (by simp; omega)).trans
      ((List.getElem_append_left hr).trans (List.getD_eq_getElem _ _ hr).symm)
  · rw [hcopy]

/-- Witness for claim C10: a dims-less `Prior("Normal")` at heap slot 1,
order 3, prefix `"season"`. -/
theorem init_empty_dims_deepcopy_witness :
    FourierBase.init [Prior.mk "Laplace" ["x"], Prior.mk "Normal" []] 0
        (PyNum.int 3) (some "season") (some 1) none =
      Except.ok
        ([Prior.mk "Laplace" ["x"], Prior.mk "Normal" [],
            Prior.mk "Normal" ["season"]],
          ⟨3, "season", 2, "season_beta"⟩) ∧
    ([Prior.mk "Laplace" ["x"], Prior.mk "Normal" [],
        Prior.mk "Normal" ["season"]].getD 1 ⟨"", []⟩ = Prior.mk "Normal" []) :=
  ⟨(init_empty_dims_deepcopy [Prior.mk "Laplace" ["x"], Prior.mk "Normal" []] 0
      (PyNum.int 3) (some "season") 1 (by decide) (by decide) (by decide)).1,
    by decide⟩

/-- An assignment of an index to each axis name. -/
def Assign : Type := String → ℕ

/-- Modelled from the spec: the labeled-tensor abstraction of spec sections
3 and 9 — data addressed by a named-axis index assignment, together with
the ordered axis-label list. The tensor library backing the source
(pytensor / xarray alignment) is outside the repository. -/
structure NamedTensor where
  dims : List String
  data : Assign → ℝ

/-- Modelled from the spec: `create_dim_handler(result_dims)`
(pymc_marketing.prior, not under src) aligns a tensor onto the target axis
list by axis name, inserting broadcast axes for names the operand lacks
(spec section 4.3, step 2). Data addressed by axis name is unchanged by
such an alignment; only the declared axis list becomes the target. -/
def dim_handler (target : List String) (t : NamedTensor) : NamedTensor :=
  ⟨target, t.data⟩

/-- Elementwise product of two axis-aligned tensors. -/
noncomputable def NamedTensor.mul (a b : NamedTensor) : NamedTensor :=
  ⟨a.dims, fun σ => a.data σ * b.data σ⟩

def updateAssign (σ : Assign) (ax : String) (j : ℕ) : Assign :=
  fun a => if a = ax then j else σ a

/-- Summation along the axis named `ax`, of cardinality `m`: the source's
positional `result.sum(axis=prefix_idx + 1)` removes the (first occurrence
of the) prefix axis from `(DUMMY_DIM, *prior.dims)`, which by name is
`List.erase`. -/
noncomputable def NamedTensor.sumAlong (m : ℕ) (ax : String) (t : NamedTensor) :
    NamedTensor :=
  ⟨t.dims.erase ax, fun σ => ∑ j ∈ Finset.range m, t.data (updateAssign σ ax j)⟩

/-- Embedding of `FourierBase.apply` (fourier.py lines 377-398): divide the
day-of-year by `days_in_period`, generate the fourier modes (axes
`(DUMMY_DIM, prefix)` with `DUMMY_DIM = "DATE"`), broadcast the modes and
the weight tensor `beta` (axes `prior.dims`) onto `("DATE", *prior.dims)`
by axis name, multiply elementwise, and sum away the prefix axis. -/
noncomputable def FourierBase.apply (n_order : ℕ) (pfx : String)
    (priorDims : List String) (beta : Assign → ℝ) (days_in_period : ℝ)
    (dayofyear : List ℝ) : NamedTensor :=
  let periods := dayofyear.map fun d => d / days_in_period
  let fourier_modes := generate_fourier_modes periods n_order
  let F : NamedTensor :=
    ⟨["DATE", pfx], fun σ => (fourier_modes.getD (σ "DATE") []).getD (σ pfx) 0⟩
  let result_dims := "DATE" :: priorDims
  let result := NamedTensor.mul (dim_handler result_dims F)
    (dim_handler result_dims ⟨priorDims, beta⟩)
  NamedTensor.sumAlong (2 * n_order) pfx result

/-- Claim C2: `apply` first computes `periods = dayofyear / days_in_period`,
aligns the feature matrix (axes `(sample, prefix)`) and the weight tensor
(axes `prior.dims`) by axis name onto `(sample, *prior.dims)` with the
sample axis leading, multiplies elementwise, and sums away exactly the
prefix axis: the output axes are the sample axis followed by the
non-harmonic weight axes in their declared order, and each output entry is
the prefix-axis contraction of fourier features against weights. -/
theorem apply_spec (n_order : ℕ) (pfx : String) (priorDims : List String)
    (beta : Assign → ℝ) (days_in_period : ℝ) (dayofyear : List ℝ)
    (hmem : pfx ∈ priorDims) (hne : pfx ≠ "DATE") :
    (FourierBase.apply n_order pfx priorDims beta days_in_period dayofyear).dims =
      "DATE" :: priorDims.erase pfx ∧
    ∀ σ : Assign,
      (FourierBase.apply n_order pfx priorDims beta days_in_period dayofyear).data σ =
        ∑ j ∈ Finset.range (2 * n_order),
          ((generate_fourier_modes (dayofyear.map fun d => d / days_in_period)
              n_order).getD (σ "DATE") []).getD j 0 *
            beta (updateAssign σ pfx j) := by
  constructor
  · simp only [FourierBase.apply, NamedTensor.sumAlong, NamedTensor.mul,
      dim_handler]
    rw [List.erase_cons_tail (by simpa using Ne.symm hne)]
  · intro σ
    simp only [FourierBase.apply, NamedTensor.sumAlong, NamedTensor.mul,
      dim_handler]
    refine Finset.sum_congr rfl fun j hj => ?_
    have h1 : updateAssign σ pfx j "DATE" = σ "DATE" := by
      simp [updateAssign, Ne.symm hne]
    have h2 : updateAssign σ pfx j pfx = j := by simp [updateAssign]
    rw [h1, h2]

/-- Witness for claim C2 at `n_order = 1`, default prefix, a prior declared
over only the prefix axis: the output keeps only the sample axis. -/
theorem apply_spec_witness :
    (FourierBase.apply 1 "fourier" ["fourier"] (fun _ => 1) 365.25
        [(0 : ℝ)]).dims = ["DATE"] :=
  (apply_spec 1 "fourier" ["fourier"] (fun _ => 1) 365.25 [(0 : ℝ)]
    (by decide) (by decide)).1

end Fourier
